import Mathlib

/-!
Verification of the TradeWise news-sentiment pipeline specification.

The repository splits into a browser UI (`front-end/src/App.js`, present in
the tree) and a Python analysis pipeline (`Product/*.py`, described by the
repository documentation but not present in the tree).  The UI definitions
below are translated directly from `App.js`; the pipeline definitions are
modelled from the specification document, as noted on each definition.
Timestamps are modelled as integers (a count of days), and LLM / HTTP
collaborators are modelled as explicit oracle functions passed to each
pipeline stage, matching the spec's design note that ambient clients become
injected collaborators.
-/

namespace TradeWise

/-- Modelled from the spec: the closed provider enumeration
(ProviderA / ProviderB / ProviderC; in the original system
polygon / finnhub / newsapi). -/
inductive Provider where
  | providerA
  | providerB
  | providerC
deriving DecidableEq, Repr

/-- Modelled from the spec: the common normalized news-item schema shared by
all provider adapters.  `date` is a timezone-aware timestamp, modelled as an
integer day count; `description` and `full_text` may be empty. -/
structure NewsItem where
  date : Int
  source : String
  title : String
  url : String
  description : String
  pid : String
  provider : Provider
  title_norm : String
  full_text : String
deriving DecidableEq, Repr

/-- Modelled from the spec: the collapse key of the first dedup stage,
`(provider, pid)`. -/
def pidKey (it : NewsItem) : Provider × String :=
  (it.provider, it.pid)

/-- Modelled from the spec: the collapse key of the second dedup stage,
`(title_norm, source)`. -/
def titleKey (it : NewsItem) : String × String :=
  (it.title_norm, it.source)

/-- Modelled from the spec: the collapse key of the third dedup stage, the
normalized URL.  The URL normalization itself (tracking-parameter stripping)
is kept abstract as a parameter `f`. -/
def urlKey (f : String → String) (it : NewsItem) : String :=
  f it.url

/-- First-occurrence-wins collapse by a key, threading the set of keys
already seen. -/
def dedupeByKeyAux {κ : Type} [DecidableEq κ] (key : NewsItem → κ)
    (seen : List κ) : List NewsItem → List NewsItem
  | [] => []
  | x :: xs =>
    if key x ∈ seen then dedupeByKeyAux key seen xs
    else x :: dedupeByKeyAux key (key x :: seen) xs

/-- Modelled from the spec: one dedup stage — keep, for every value of the
collapse key, the earliest item in input order. -/
def dedupeByKey {κ : Type} [DecidableEq κ] (key : NewsItem → κ)
    (l : List NewsItem) : List NewsItem :=
  dedupeByKeyAux key [] l

/-- Modelled from the spec: the Deduplicator.  Strict sequential application
of the three collapse stages: pid-stage, then title+source-stage, then
URL-stage, each filtering the survivors of the previous.  `f` is the URL
normalization. -/
def dedupe (f : String → String) (items : List NewsItem) : List NewsItem :=
  dedupeByKey (urlKey f) (dedupeByKey titleKey (dedupeByKey pidKey items))

theorem dedupeByKeyAux_sublist {κ : Type} [DecidableEq κ]
    (key : NewsItem → κ) :
    ∀ (seen : List κ) (l : List NewsItem),
      (dedupeByKeyAux key seen l).Sublist l := by
  intro seen l
  induction l generalizing seen with
  | nil => simp [dedupeByKeyAux]
  | cons x xs ih =>
    by_cases h : key x ∈ seen
    · simp only [dedupeByKeyAux, if_pos h]
      exact (ih seen).trans (List.sublist_cons_self x xs)
    · simp only [dedupeByKeyAux, if_neg h]
      exact (ih (key x :: seen)).cons₂ x

theorem dedupeByKey_sublist {κ : Type} [DecidableEq κ] (key : NewsItem → κ)
    (l : List NewsItem) : (dedupeByKey key l).Sublist l :=
  dedupeByKeyAux_sublist key [] l

/-- Within one collapse stage, the survivors with a given key value are
exactly the first input item with that key value (none if the key was
already seen). -/
theorem dedupeByKeyAux_filter {κ : Type} [DecidableEq κ]
    (key : NewsItem → κ) (k : κ) :
    ∀ (seen : List κ) (l : List NewsItem),
      (dedupeByKeyAux key seen l).filter (fun x => decide (key x = k)) =
        if k ∈ seen then []
        else (l.filter (fun x => decide (key x = k))).take 1 := by
  intro seen l
  induction l generalizing seen with
  | nil => simp [dedupeByKeyAux]
  | cons x xs ih =>
    by_cases hx : key x ∈ seen
    · simp only [dedupeByKeyAux, if_pos hx]
      rw [ih seen]
      by_cases hk : key x = k
      · subst hk
        simp [hx, List.filter_cons]
      · simp [List.filter_cons, hk]
    · simp only [dedupeByKeyAux, if_neg hx]
      by_cases hk : key x = k
      · subst hk
        rw [List.filter_cons]
        simp only [decide_True, if_pos rfl]
        rw [ih (key x :: seen)]
        simp [hx, List.filter_cons]
      · rw [List.filter_cons]
        simp only [hk, decide_False]
        rw [ih (key x :: seen), List.filter_cons]
        simp only [hk, decide_False]
        have : (k ∈ key x :: seen) ↔ k ∈ seen := by
          simp [List.mem_cons, Ne.symm hk]
        simp only [if_neg, this]
        by_cases hks : k ∈ seen <;> simp [hks]

theorem dedupeByKey_filter {κ : Type} [DecidableEq κ] (key : NewsItem → κ)
    (k : κ) (l : List NewsItem) :
    (dedupeByKey key l).filter (fun x => decide (key x = k)) =
      (l.filter (fun x => decide (key x = k))).take 1 := by
  rw [dedupeByKey, dedupeByKeyAux_filter]
  simp

/-- The keys of a stage's output are pairwise distinct and avoid `seen`. -/
theorem dedupeByKeyAux_keys_nodup {κ : Type} [DecidableEq κ]
    (key : NewsItem → κ) :
    ∀ (seen : List κ) (l : List NewsItem),
      ((dedupeByKeyAux key seen l).map key).Nodup ∧
        ∀ k ∈ (dedupeByKeyAux key seen l).map key, k ∉ seen := by
  intro seen l
  induction l generalizing seen with
  | nil => simp [dedupeByKeyAux]
  | cons x xs ih =>
    by_cases hx : key x ∈ seen
    · simpa [dedupeByKeyAux, hx] using ih seen
    · have h := ih (key x :: seen)
      constructor
      · simp only [dedupeByKeyAux, if_neg hx, List.map_cons, List.nodup_cons]
        refine ⟨fun hmem => ?_, h.1⟩
        exact (h.2 _ hmem) (List.mem_cons_self _ _)
      · intro k hk
        simp only [dedupeByKeyAux, if_neg hx, List.map_cons,
          List.mem_cons] at hk
        rcases hk with rfl | hk
        · exact hx
        · exact fun hs => (h.2 k hk) (List.mem_cons_of_mem _ hs)

theorem dedupeByKey_keys_nodup {κ : Type} [DecidableEq κ]
    (key : NewsItem → κ) (l : List NewsItem) :
    ((dedupeByKey key l).map key).Nodup :=
  (dedupeByKeyAux_keys_nodup key [] l).1

/-- A stage is the identity on a list whose keys are already pairwise
distinct and avoid `seen`. -/
theorem dedupeByKeyAux_id {κ : Type} [DecidableEq κ] (key : NewsItem → κ) :
    ∀ (seen : List κ) (l : List NewsItem),
      (l.map key).Nodup → (∀ k ∈ l.map key, k ∉ seen) →
      dedupeByKeyAux key seen l = l := by
  intro seen l
  induction l generalizing seen with
  | nil => intro _ _; simp [dedupeByKeyAux]
  | cons x xs ih =>
    intro hnd hav
    have hx : key x ∉ seen := hav (key x) (by simp)
    simp only [dedupeByKeyAux, if_neg hx]
    congr 1
    apply ih
    · exact (List.nodup_cons.mp (by simpa using hnd)).2
    · intro k hk
      simp only [List.mem_cons, not_or]
      constructor
      · intro hkx
        subst hkx
        exact (List.nodup_cons.mp (by simpa using hnd)).1 hk
      · exact hav k (by simp [hk])

theorem dedupeByKey_id {κ : Type} [DecidableEq κ] (key : NewsItem → κ)
    (l : List NewsItem) (h : (l.map key).Nodup) : dedupeByKey key l = l :=
  dedupeByKeyAux_id key [] l h (by simp)

/-- Concrete item used to exercise the dedup stages: pid (providerA, "1"),
title key ("t", "s"), url "u1". -/
def cexItem1 : NewsItem :=
  ⟨0, "s", "T1", "u1", "", "1", Provider.providerA, "t", ""⟩

/-- Concrete item: pid (providerA, "2"), title key ("t", "s"), url "u2".
Shares its title key with `cexItem1` and its pid key with `cexItem3`. -/
def cexItem2 : NewsItem :=
  ⟨0, "s", "T2", "u2", "", "2", Provider.providerA, "t", ""⟩

/-- Concrete item: pid (providerA, "2"), title key ("t3", "s"), url "u3". -/
def cexItem3 : NewsItem :=
  ⟨0, "s", "T3", "u3", "", "2", Provider.providerA, "t3", ""⟩

/-- Claim C2, counterexample.  `cexItem2` and `cexItem3` form a group
sharing the `(provider, pid)` key, yet under strict sequential stage
application neither of them appears in `dedupe`'s output: `cexItem3` is
removed by the pid-stage (its pid key duplicates `cexItem2`'s) and
`cexItem2` is then removed by the title+source-stage (its title key
duplicates `cexItem1`'s) — so the group has zero survivors, not exactly
one. -/
theorem C2_counterexample :
    pidKey cexItem2 = pidKey cexItem3 ∧
    dedupe (fun u => u) [cexItem1, cexItem2, cexItem3] = [cexItem1] ∧
    cexItem2 ∉ dedupe (fun u => u) [cexItem1, cexItem2, cexItem3] ∧
    cexItem3 ∉ dedupe (fun u => u) [cexItem1, cexItem2, cexItem3] := by
  decide

/-- Claim C2 (amended): `dedupe(items)` is an order-preserving subsequence
of its input; the three collapse keys are applied strictly in the order
pid-stage, then title+source-stage, then URL-stage, each filtering the
survivors of the previous stage and keeping, for every key-group of its own
input, exactly the earliest item; consequently no two output items share a
pid key, a title+source key, or a normalized URL, so at most one item of
each input key-group appears in the output (a group may lose every member
to a different key's stage, so the survivor is not always the input-earliest
of its group). -/
theorem C2_dedupe_stages (f : String → String) (items : List NewsItem) :
    (dedupe f items).Sublist items ∧
    dedupe f items =
      dedupeByKey (urlKey f)
        (dedupeByKey titleKey (dedupeByKey pidKey items)) ∧
    (∀ k, (dedupeByKey pidKey items).filter
        (fun x => decide (pidKey x = k)) =
      (items.filter (fun x => decide (pidKey x = k))).take 1) ∧
    (∀ k, (dedupeByKey titleKey (dedupeByKey pidKey items)).filter
        (fun x => decide (titleKey x = k)) =
      ((dedupeByKey pidKey items).filter
        (fun x => decide (titleKey x = k))).take 1) ∧
    (∀ k, (dedupe f items).filter (fun x => decide (urlKey f x = k)) =
      ((dedupeByKey titleKey (dedupeByKey pidKey items)).filter
        (fun x => decide (urlKey f x = k))).take 1) ∧
    ((dedupe f items).map pidKey).Nodup ∧
    ((dedupe f items).map titleKey).Nodup ∧
    ((dedupe f items).map (urlKey f)).Nodup := by
  have hs3 : (dedupe f items).Sublist
      (dedupeByKey titleKey (dedupeByKey pidKey items)) :=
    dedupeByKey_sublist _ _
  have hs2 : (dedupeByKey titleKey (dedupeByKey pidKey items)).Sublist
      (dedupeByKey pidKey items) := dedupeByKey_sublist _ _
  have hs1 : (dedupeByKey pidKey items).Sublist items :=
    dedupeByKey_sublist _ _
  refine ⟨(hs3.trans hs2).trans hs1, rfl, ?_, ?_, ?_, ?_, ?_, ?_⟩
  · intro k; exact dedupeByKey_filter pidKey k items
  · intro k; exact dedupeByKey_filter titleKey k _
  · intro k; exact dedupeByKey_filter (urlKey f) k _
  · exact List.Nodup.sublist ((hs3.trans hs2).map pidKey)
      (dedupeByKey_keys_nodup pidKey items)
  · exact List.Nodup.sublist (hs3.map titleKey)
      (dedupeByKey_keys_nodup titleKey _)
  · exact dedupeByKey_keys_nodup (urlKey f) _

/-- Claim C3: the Deduplicator is idempotent — re-running `dedupe` on its
own output is a no-op, for every input sequence and every URL
normalization. -/
theorem C3_dedupe_idempotent (f : String → String)
    (items : List NewsItem) : dedupe f (dedupe f items) = dedupe f items := by
  have hs3 : (dedupe f items).Sublist
      (dedupeByKey titleKey (dedupeByKey pidKey items)) :=
    dedupeByKey_sublist _ _
  have hs2 : (dedupeByKey titleKey (dedupeByKey pidKey items)).Sublist
      (dedupeByKey pidKey items) := dedupeByKey_sublist _ _
  have h1 : ((dedupe f items).map pidKey).Nodup :=
    List.Nodup.sublist ((hs3.trans hs2).map pidKey)
      (dedupeByKey_keys_nodup pidKey items)
  have h2 : ((dedupe f items).map titleKey).Nodup :=
    List.Nodup.sublist (hs3.map titleKey)
      (dedupeByKey_keys_nodup titleKey _)
  have h3 : ((dedupe f items).map (urlKey f)).Nodup :=
    dedupeByKey_keys_nodup (urlKey f) _
  show dedupeByKey (urlKey f)
      (dedupeByKey titleKey (dedupeByKey pidKey (dedupe f items))) =
    dedupe f items
  rw [dedupeByKey_id pidKey _ h1, dedupeByKey_id titleKey _ h2,
    dedupeByKey_id (urlKey f) _ h3]

/-- Modelled from the spec: the per-adapter failure kinds (timeout, HTTP
error, malformed response). -/
inductive ProviderError where
  | timeout
  | httpError
  | malformed
deriving DecidableEq, Repr

/-- Modelled from the spec: the merge step of the News Aggregator — collect
whatever the adapters returned successfully, drop the per-provider
failures. -/
def mergedNews (rs : List (Except ProviderError (List NewsItem))) :
    List NewsItem :=
  (rs.filterMap (fun r =>
    match r with
    | Except.ok l => some l
    | Except.error _ => none)).flatten

/-- Modelled from the spec: the recency cutoff — an item is kept exactly
when its date is at least `now - rd` (boundary inclusive). -/
def recencyFilter (now rd : Int) (items : List NewsItem) : List NewsItem :=
  items.filter (fun it => decide (now - rd ≤ it.date))

/-- Modelled from the spec: the News Aggregator — merge the successful
adapter results and apply the recency cutoff. -/
def aggregate (now rd : Int)
    (rs : List (Except ProviderError (List NewsItem))) : List NewsItem :=
  recencyFilter now rd (mergedNews rs)

/-- Claim C5: the recency cutoff is inclusive at the boundary.  Membership
in the aggregate is characterized by `now - rd ≤ date`, so an item dated
exactly `rd` days in the past (`date = now - rd`) is kept, and an item
strictly older — in particular one dated `rd + 1` days in the past
(`date = now - rd - 1 < now - rd`) — is dropped.  The second and third
conjuncts exhibit the two boundary cases on a single-item aggregate. -/
theorem C5_recency_boundary (now rd : Int)
    (rs : List (Except ProviderError (List NewsItem))) (it : NewsItem) :
    (it ∈ aggregate now rd rs ↔ it ∈ mergedNews rs ∧ now - rd ≤ it.date) ∧
    { it with date := now - rd } ∈
      aggregate now rd [Except.ok [{ it with date := now - rd }]] ∧
    { it with date := now - (rd + 1) } ∉
      aggregate now rd [Except.ok [{ it with date := now - (rd + 1) }]] := by
  refine ⟨?_, ?_, ?_⟩
  · simp [aggregate, recencyFilter, List.mem_filter]
  · simp [aggregate, recencyFilter, mergedNews, List.mem_filter]
  · intro h
    simp [aggregate, recencyFilter, mergedNews, List.mem_filter] at h
    omega

/-- If every adapter failed, the merged news set is empty. -/
theorem mergedNews_eq_nil
    (rs : List (Except ProviderError (List NewsItem)))
    (hall : ∀ r ∈ rs, ∃ e, r = Except.error e) : mergedNews rs = [] := by
  induction rs with
  | nil => rfl
  | cons r rs ih =>
    obtain ⟨e, rfl⟩ := hall r (List.mem_cons_self _ _)
    simp only [mergedNews, List.filterMap_cons]
    exact ih fun r hr => hall r (List.mem_cons_of_mem _ hr)

/-- The resolved company identity: canonical name plus primary ticker
(empty ticker signals unresolved). -/
structure ResolvedEntity where
  canonical_name : String
  ticker : String
deriving DecidableEq, Repr

/-- Batches of at most `n` items, in order.  (`n = 0` degenerates to
singleton batches.) -/
def chunkList {α : Type} (n : Nat) : List α → List (List α)
  | [] => []
  | x :: xs => (x :: xs.take (n - 1)) :: chunkList n (xs.drop (n - 1))
termination_by l => l.length
decreasing_by
  simp only [List.length_drop, List.length_cons]
  omega

theorem chunkList_flatten {α : Type} (n : Nat) :
    ∀ (l : List α), (chunkList n l).flatten = l
  | [] => by simp [chunkList]
  | x :: xs => by
    have ih := chunkList_flatten n (xs.drop (n - 1))
    simp only [chunkList, List.flatten_cons, ih, List.cons_append]
    rw [List.take_append_drop]
termination_by l => l.length
decreasing_by simp only [List.length_drop, List.length_cons]; omega

/-- Modelled from the spec: processing of one Relevance Filter batch.  The
LLM oracle answers with one yes/no flag per item (`none` models an errored
or timed-out call or an unparseable response); a response whose flag count
does not match the batch is a schema violation.  Any failure excludes the
whole batch. -/
def processBatch (oracle : List NewsItem → Option (List Bool))
    (b : List NewsItem) : List NewsItem :=
  match oracle b with
  | none => []
  | some flags =>
    if flags.length = b.length then
      (b.zip flags).filterMap (fun p => if p.2 then some p.1 else none)
    else []

/-- The batch-failure condition of the spec: the LLM call errored, timed
out, or returned a response failing schema validation. -/
def batchFails (resp : Option (List Bool)) (b : List NewsItem) : Prop :=
  match resp with
  | none => True
  | some flags => flags.length ≠ b.length

/-- Modelled from the spec: the Relevance Filter — group the items into
batches of `batchSize`, classify each batch through the LLM oracle, and
keep the yes-flagged items of the successfully classified batches. -/
def llmFilter (oracle : ResolvedEntity → List NewsItem → Option (List Bool))
    (entity : ResolvedEntity) (items : List NewsItem) (batchSize : Nat) :
    List NewsItem :=
  ((chunkList batchSize items).map (processBatch (oracle entity))).flatten

theorem zip_filterMap_sublist :
    ∀ (b : List NewsItem) (flags : List Bool),
      ((b.zip flags).filterMap
        (fun p => if p.2 then some p.1 else none)).Sublist b := by
  intro b
  induction b with
  | nil => intro flags; simp
  | cons x xs ih =>
    intro flags
    cases flags with
    | nil => simp
    | cons f fs =>
      simp only [List.zip_cons_cons, List.filterMap_cons]
      cases f with
      | false => exact (ih fs).trans (List.sublist_cons_self x xs)
      | true => exact (ih fs).cons₂ x

theorem processBatch_sublist (oracle : List NewsItem → Option (List Bool))
    (b : List NewsItem) : (processBatch oracle b).Sublist b := by
  unfold processBatch
  cases oracle b with
  | none => simp
  | some flags =>
    by_cases h : flags.length = b.length
    · simpa [h] using zip_filterMap_sublist b flags
    · simp [h]

theorem processBatch_eq_nil_of_fails
    (oracle : List NewsItem → Option (List Bool)) (b : List NewsItem)
    (h : batchFails (oracle b) b) : processBatch oracle b = [] := by
  unfold processBatch
  unfold batchFails at h
  cases ho : oracle b with
  | none => rfl
  | some flags =>
    rw [ho] at h
    simp [h]

theorem flattenMap_sublist {α : Type} (f : List α → List α)
    (hf : ∀ b, (f b).Sublist b) :
    ∀ (bs : List (List α)), ((bs.map f).flatten).Sublist bs.flatten := by
  intro bs
  induction bs with
  | nil => simp
  | cons b bs ih =>
    simp only [List.map_cons, List.flatten_cons]
    exact (hf b).append ih

/-- Two member lists of a duplicate-free concatenation that share an
element are the same list. -/
theorem eq_of_mem_flatten_nodup {α : Type} :
    ∀ (l : List (List α)), l.flatten.Nodup →
      ∀ {b b' : List α} {x : α}, b ∈ l → b' ∈ l → x ∈ b → x ∈ b' →
        b = b' := by
  intro l
  induction l with
  | nil => intro _ b b' x hb; simp at hb
  | cons c cs ih =>
    intro hnd b b' x hb hb' hxb hxb'
    rw [List.flatten_cons, List.nodup_append] at hnd
    obtain ⟨-, hcs, hdisj⟩ := hnd
    rcases List.mem_cons.mp hb with hbc | hbm
    · rcases List.mem_cons.mp hb' with hbc' | hbm'
      · rw [hbc, hbc']
      · rw [hbc] at hxb
        exact (hdisj hxb (List.mem_flatten.mpr ⟨b', hbm', hxb'⟩)).elim
    · rcases List.mem_cons.mp hb' with hbc' | hbm'
      · rw [hbc'] at hxb'
        exact (hdisj hxb' (List.mem_flatten.mpr ⟨b, hbm, hxb⟩)).elim
      · exact ih hcs hbm hbm' hxb hxb'

/-- Claim C4: the Relevance Filter is all-or-nothing per batch.  Its output
is an order-preserving subset of its input, and when a batch's LLM call
errors, times out, or fails schema validation, no item of that batch
appears in the output. -/
theorem C4_filter_fail_closed
    (oracle : ResolvedEntity → List NewsItem → Option (List Bool))
    (entity : ResolvedEntity) (items : List NewsItem) (batchSize : Nat)
    (hnd : items.Nodup) :
    (llmFilter oracle entity items batchSize).Sublist items ∧
    ∀ b ∈ chunkList batchSize items, batchFails (oracle entity b) b →
      ∀ x ∈ b, x ∉ llmFilter oracle entity items batchSize := by
  constructor
  · have h := flattenMap_sublist (processBatch (oracle entity))
      (processBatch_sublist (oracle entity)) (chunkList batchSize items)
    rwa [chunkList_flatten] at h
  · intro b hb hfail x hxb hxout
    obtain ⟨pb, hpb, hxpb⟩ := List.mem_flatten.mp hxout
    obtain ⟨b', hb', rfl⟩ := List.mem_map.mp hpb
    have hxb' : x ∈ b' := (processBatch_sublist (oracle entity) b').subset hxpb
    have hjnd : (chunkList batchSize items).flatten.Nodup := by
      rwa [chunkList_flatten]
    have hbb : b = b' :=
      eq_of_mem_flatten_nodup (chunkList batchSize items) hjnd hb hb' hxb hxb'
    subst hbb
    rw [processBatch_eq_nil_of_fails (oracle entity) b hfail] at hxpb
    exact absurd hxpb (List.not_mem_nil x)

/-- Modelled from the spec: the Article Fetcher on one item.  The fetch
oracle returns the extracted article body, or `none` on any fail-closed
condition (non-2xx HTTP status such as 403/404, paywall markers, timeout,
or implausibly short extraction); the body is capped at 15000 characters.
Only `full_text` is modified; a failed fetch leaves it empty. -/
def enrichOne (fetch : String → Option String) (it : NewsItem) : NewsItem :=
  { it with
    full_text :=
      match fetch it.url with
      | some t => t.take 15000
      | none => "" }

/-- Modelled from the spec: the Article Fetcher — every item is processed
independently and retained. -/
def enrich (fetch : String → Option String) (items : List NewsItem) :
    List NewsItem :=
  items.map (enrichOne fetch)

/-- Agreement of two news items on every field except `full_text`. -/
def agreesExceptFullText (a b : NewsItem) : Prop :=
  a.date = b.date ∧ a.source = b.source ∧ a.title = b.title ∧
  a.url = b.url ∧ a.description = b.description ∧ a.pid = b.pid ∧
  a.provider = b.provider ∧ a.title_norm = b.title_norm

/-- Claim C6: the Article Fetcher never drops or adds items — `enrich`
returns exactly one output item per input item, in order, each agreeing
with its input item on every field except `full_text`; and an item whose
fetch fails comes out with `full_text` empty. -/
theorem C6_enrich_frame (fetch : String → Option String)
    (items : List NewsItem) :
    (enrich fetch items).length = items.length ∧
    enrich fetch items = items.map (enrichOne fetch) ∧
    (∀ it, agreesExceptFullText (enrichOne fetch it) it) ∧
    (∀ it, fetch it.url = none → (enrichOne fetch it).full_text = "") := by
  refine ⟨List.length_map _ _, rfl, ?_, ?_⟩
  · intro it
    simp [enrichOne, agreesExceptFullText]
  · intro it h
    simp [enrichOne, h]

/-- Modelled from the spec: the Entity Resolver.  The LLM oracle is a
stream of attempt results (`llm i` is the outcome of the `i`-th call;
`none` models an LLM error, a parse failure, or missing fields); the
resolver consults only attempt 0 — a single attempt, no retry — and falls
back to the literal input with an empty ticker on failure, never
raising. -/
def resolve (llm : Nat → Option ResolvedEntity) (company_text : String) :
    ResolvedEntity :=
  match llm 0 with
  | some e => e
  | none => ⟨company_text, ""⟩

/-- Claim C7: on a failed single LLM attempt, `resolve` returns the
unmodified input as canonical name with an empty ticker (it is a total
function, so it never raises); and it depends only on attempt 0 of the LLM
stream — exactly one LLM attempt per query, no retries. -/
theorem C7_resolver_fail_closed (llm : Nat → Option ResolvedEntity)
    (company_text : String) :
    (llm 0 = none →
      resolve llm company_text =
        ⟨company_text, ""⟩) ∧
    (∀ llm2 : Nat → Option ResolvedEntity, llm 0 = llm2 0 →
      resolve llm company_text = resolve llm2 company_text) := by
  constructor
  · intro h
    simp [resolve, h]
  · intro llm2 h
    simp [resolve, h]

/-- Modelled from the spec: the closed three-value stance enumeration. -/
inductive Stance where
  | bullish
  | neutral
  | bearish
deriving DecidableEq, Repr

/-- Modelled from the spec: the investment goal enumeration. -/
inductive Goal where
  | shortTerm
  | longTerm
deriving DecidableEq, Repr

/-- Modelled from the spec: the parsed fields of a well-formed structured
LLM response to the synthesis prompt, before validation. -/
structure RawSynthesis where
  bullets : List String
  long_summary : String
  stance : String
  score : Int
  reason : String
deriving DecidableEq, Repr

/-- Modelled from the spec: the validated sentiment output. -/
structure SentimentResult where
  bullets : List String
  long_summary : String
  stance : Stance
  score : Int
  reason : String
deriving DecidableEq, Repr

/-- Modelled from the spec: the fatal error of the Sentiment
Synthesizer. -/
inductive SynthesisError where
  | schemaViolation
deriving DecidableEq, Repr

/-- Modelled from the spec: stance must be one of the three enumerated
values. -/
def parseStance (s : String) : Option Stance :=
  if s = "Bullish" then some Stance.bullish
  else if s = "Neutral" then some Stance.neutral
  else if s = "Bearish" then some Stance.bearish
  else none

/-- Modelled from the spec: the Sentiment Synthesizer's validation.
`response` is the LLM response, already taken through structured parsing
(`none` models a response that does not parse as well-formed structured
data).  Validation is strict: 4 to 6 bullets, non-empty `long_summary`, an
enumerated stance, and an integer score in [1, 9]; any violation is a
`SynthesisError` and no result is produced. -/
def synthesize (entity : ResolvedEntity) (items : List NewsItem)
    (goal : Goal) (response : Option RawSynthesis) :
    Except SynthesisError SentimentResult :=
  match response with
  | none => Except.error SynthesisError.schemaViolation
  | some r =>
    match parseStance r.stance with
    | none => Except.error SynthesisError.schemaViolation
    | some st =>
      if r.bullets.length < 4 ∨ 6 < r.bullets.length then
        Except.error SynthesisError.schemaViolation
      else if r.long_summary = "" then
        Except.error SynthesisError.schemaViolation
      else if r.score < 1 ∨ 9 < r.score then
        Except.error SynthesisError.schemaViolation
      else
        Except.ok ⟨r.bullets, r.long_summary, st, r.score, r.reason⟩

/-- Claim C1: `synthesize` produces a result exactly when the LLM response
parses as well-formed structured data with 4 to 6 bullets, a non-empty
`long_summary`, a stance among Bullish/Neutral/Bearish, and an integer
score in [1, 9]; every other response — in particular score 0, score 10,
or exactly 3 bullets — yields `SynthesisError` and no result, so no
sentiment is ever silently defaulted. -/
theorem C1_synthesis_validation (entity : ResolvedEntity)
    (items : List NewsItem) (goal : Goal) (response : Option RawSynthesis) :
    (∃ res, synthesize entity items goal response = Except.ok res) ↔
      ∃ r, response = some r ∧
        4 ≤ r.bullets.length ∧ r.bullets.length ≤ 6 ∧
        r.long_summary ≠ "" ∧
        (r.stance = "Bullish" ∨ r.stance = "Neutral" ∨
          r.stance = "Bearish") ∧
        1 ≤ r.score ∧ r.score ≤ 9 := by
  cases response with
  | none => simp [synthesize]
  | some r =>
    constructor
    · rintro ⟨res, h⟩
      refine ⟨r, rfl, ?_⟩
      simp only [synthesize] at h
      cases hps : parseStance r.stance with
      | none => rw [hps] at h; exact absurd h (by simp)
      | some st =>
        rw [hps] at h
        split_ifs at h with h1 h2 h3
        have hst : r.stance = "Bullish" ∨ r.stance = "Neutral" ∨
            r.stance = "Bearish" := by
          unfold parseStance at hps
          split_ifs at hps with hb hn hbe
          · exact Or.inl hb
          · exact Or.inr (Or.inl hn)
          · exact Or.inr (Or.inr hbe)
        push_neg at h1 h3
        exact ⟨h1.1, by omega, h2, hst, h3.1, by omega⟩
    · rintro ⟨r', hr', hb1, hb2, hls, hst, hs1, hs2⟩
      obtain rfl : r = r' := Option.some.inj hr'
      have hps : ∃ st, parseStance r.stance = some st := by
        rcases hst with h | h | h <;>
          · rw [h]
            simp [parseStance]
      obtain ⟨st, hps⟩ := hps
      refine ⟨⟨r.bullets, r.long_summary, st, r.score, r.reason⟩, ?_⟩
      simp only [synthesize, hps]
      rw [if_neg (by omega), if_neg hls, if_neg (by omega)]

/-- Modelled from the spec: the fatal pipeline error surfaced to the
caller (only synthesis failures are fatal). -/
inductive PipelineError where
  | synthesisFailed (e : SynthesisError)
deriving DecidableEq, Repr

/-- Modelled from the spec: the outcome of a pipeline run — either an
explicit "no recent news" result or a completed sentiment result. -/
inductive RunOutcome where
  | noRecentNews
  | completed (r : SentimentResult)
deriving DecidableEq, Repr

/-- Modelled from the spec: the pipeline entry point
`run_analysis(company_text, goal)`.  The external collaborators (LLM
resolution stream, adapter call results, relevance oracle, fetch oracle,
synthesis response oracle, URL normalization, clock) are explicit
arguments.  Resolver → Aggregator → Deduplicator → Relevance Filter →
Article Fetcher → Synthesizer; an empty aggregate is surfaced as the
explicit `noRecentNews` outcome, not as an error. -/
def run_analysis (llmResolve : Nat → Option ResolvedEntity)
    (adapterResults : List (Except ProviderError (List NewsItem)))
    (filterOracle : ResolvedEntity → List NewsItem → Option (List Bool))
    (fetchOracle : String → Option String)
    (synthOracle : ResolvedEntity → List NewsItem → Goal →
      Option RawSynthesis)
    (normUrl : String → String) (now rd : Int)
    (company_text : String) (goal : Goal) :
    Except PipelineError RunOutcome :=
  let entity := resolve llmResolve company_text
  let news := aggregate now rd adapterResults
  if news = [] then Except.ok RunOutcome.noRecentNews
  else
    let dd := dedupe normUrl news
    let rel := llmFilter filterOracle entity dd 10
    let enriched := (enrich fetchOracle rel).take 20
    match synthesize entity enriched goal
        (synthOracle entity enriched goal) with
    | Except.error e => Except.error (PipelineError.synthesisFailed e)
    | Except.ok s => Except.ok (RunOutcome.completed s)

/-- Claim C8: when every configured provider adapter fails, the aggregate
is the empty sequence (not an error), and `run_analysis` returns the
explicit no-recent-news outcome rather than an exception. -/
theorem C8_all_adapters_fail (llmResolve : Nat → Option ResolvedEntity)
    (adapterResults : List (Except ProviderError (List NewsItem)))
    (filterOracle : ResolvedEntity → List NewsItem → Option (List Bool))
    (fetchOracle : String → Option String)
    (synthOracle : ResolvedEntity → List NewsItem → Goal →
      Option RawSynthesis)
    (normUrl : String → String) (now rd : Int)
    (company_text : String) (goal : Goal)
    (hall : ∀ r ∈ adapterResults, ∃ e, r = Except.error e) :
    aggregate now rd adapterResults = [] ∧
    run_analysis llmResolve adapterResults filterOracle fetchOracle
      synthOracle normUrl now rd company_text goal =
      Except.ok RunOutcome.noRecentNews := by
  have hagg : aggregate now rd adapterResults = [] := by
    rw [aggregate, mergedNews_eq_nil adapterResults hall]
    rfl
  refine ⟨hagg, ?_⟩
  simp only [run_analysis, hagg, if_pos]

/-! The following definitions are translated from the chat UI in
`front-end/src/App.js` (`ChatContent`). -/

/-- The character class matched by the JavaScript regular-expression token
`\s` (and removed by `String.prototype.trim`): ASCII whitespace, NBSP, the
Unicode space separators, the line separators, and the BOM. -/
def jsWhitespace (c : Char) : Bool :=
  let n := c.toNat
  n = 9 || n = 10 || n = 11 || n = 12 || n = 13 || n = 32 ||
  n = 0xa0 || n = 0x1680 || (0x2000 ≤ n && n ≤ 0x200a) ||
  n = 0x2028 || n = 0x2029 || n = 0x202f || n = 0x205f || n = 0x3000 ||
  n = 0xfeff

/-- JavaScript `name.trim()`: strip whitespace from both ends. -/
def jsTrimChars (l : List Char) : List Char :=
  ((l.dropWhile jsWhitespace).reverse.dropWhile jsWhitespace).reverse

/-- The character class of the validation regular expression in
`isValidCompanyName` (`App.js` line 39): letters, digits, whitespace,
hyphen, period, and ampersand. -/
def allowedNameChar (c : Char) : Bool :=
  let n := c.toNat
  (97 ≤ n && n ≤ 122) || (65 ≤ n && n ≤ 90) || (48 ≤ n && n ≤ 57) ||
  jsWhitespace c || n = 45 || n = 46 || n = 38

/-- `isValidCompanyName` from `App.js`: the trimmed name must match the
anchored regular expression — between 1 and 100 characters, all from the
allowed class — and be non-empty. -/
def isValidCompanyName (name : String) : Bool :=
  let t := jsTrimChars name.data
  (decide (1 ≤ t.length) && decide (t.length ≤ 100) &&
    t.all allowedNameChar) && decide (0 < t.length)

/-- One entry of the chat message list. -/
structure ChatMessage where
  text : String
  sender : String
deriving DecidableEq, Repr

/-- The `ChatContent` component state: the message list and the
`companyName`, `detailLevel`, and `inputError` state hooks. -/
structure ChatState where
  messages : List ChatMessage
  companyName : String
  detailLevel : String
  inputError : String
deriving DecidableEq, Repr

/-- The body posted to `/api/analysis/query` by `saveAnalysisQuery`. -/
structure AnalysisQuery where
  company_name : String
  detail_level : String
deriving DecidableEq, Repr

/-- The body posted to `/api/analyze` by `analyzeSentiment`. -/
structure AnalyzeRequest where
  company_name : String
  goal : String
deriving DecidableEq, Repr

/-- The validation error message set by `handleSend`. -/
def invalidNameError : String :=
  "Please enter a valid company name (letters, numbers, hyphens, periods only)"

/-- `handleSend` from `App.js`: clear the error, validate the company
name, and on failure set the error message and stop; on success append the
user message, post the query to the backend, and request the analysis with
the goal derived from the detail level (`detailed` maps to `long-term`,
anything else to `short-term`).  The two outbound requests are returned
alongside the new state (`none` when not sent). -/
def handleSend (s : ChatState) :
    ChatState × Option AnalysisQuery × Option AnalyzeRequest :=
  if isValidCompanyName s.companyName = false then
    ({ s with inputError := invalidNameError }, none, none)
  else
    let trimmed : String := ⟨jsTrimChars s.companyName.data⟩
    let userMsg : ChatMessage :=
      ⟨"Analyze " ++ trimmed ++ " (" ++ s.detailLevel ++ " mode)", "user"⟩
    ({ s with
        inputError := "",
        messages := s.messages ++ [userMsg],
        companyName := "" },
     some ⟨trimmed, s.detailLevel⟩,
     some ⟨trimmed,
       if s.detailLevel = "detailed" then "long-term" else "short-term"⟩)

/-- Claim C9: the chat UI gates every analysis request on the validation
regular expression.  When the trimmed company name fails
`isValidCompanyName`, `handleSend` sends no backend query and no analysis
request and changes only `inputError`, leaving the message list (and all
other state) unchanged — so the pipeline entry point is never invoked from
the UI with such a name. -/
theorem C9_invalid_name_gates_send (s : ChatState)
    (h : isValidCompanyName s.companyName = false) :
    handleSend s = ({ s with inputError := invalidNameError }, none, none) := by
  simp [handleSend, h]

/-- Claim C10: the detail-level-to-goal mapping is deterministic and
two-valued.  Whenever `handleSend` issues an analysis request, its goal is
`long-term` exactly when the detail toggle is `detailed`, and `short-term`
in every other case. -/
theorem C10_goal_mapping (s : ChatState) (r : AnalyzeRequest)
    (h : (handleSend s).2.2 = some r) :
    (r.goal = "long-term" ↔ s.detailLevel = "detailed") ∧
    (s.detailLevel ≠ "detailed" → r.goal = "short-term") := by
  unfold handleSend at h
  by_cases hv : isValidCompanyName s.companyName = false
  · rw [if_pos hv] at h
    exact absurd h (by simp)
  · rw [if_neg hv] at h
    obtain rfl : (⟨⟨jsTrimChars s.companyName.data⟩,
        if s.detailLevel = "detailed" then "long-term" else "short-term"⟩ :
        AnalyzeRequest) = r := Option.some.inj h
    by_cases hd : s.detailLevel = "detailed"
    · simp [hd]
    · simp [hd]

/-! Concrete collaborators and states used to witness the theorems above
on evaluated inputs. -/

/-- A relevance oracle whose every batch call fails. -/
def failFilterOracle :
    ResolvedEntity → List NewsItem → Option (List Bool) :=
  fun _ _ => none

/-- A fetch oracle whose every retrieval fails. -/
def failFetch : String → Option String := fun _ => none

/-- An LLM resolution stream whose every attempt fails. -/
def failResolve : Nat → Option ResolvedEntity := fun _ => none

/-- A synthesis oracle whose response never parses. -/
def failSynth :
    ResolvedEntity → List NewsItem → Goal → Option RawSynthesis :=
  fun _ _ _ => none

/-- A concrete resolved entity. -/
def appleEntity : ResolvedEntity := ⟨"Apple", "AAPL"⟩

/-- Adapter results in which every provider failed. -/
def wFailingAdapters : List (Except ProviderError (List NewsItem)) :=
  [Except.error ProviderError.timeout, Except.error ProviderError.httpError]

/-- A well-formed synthesis response: 5 bullets, non-empty narrative,
stance Bullish, score 7. -/
def wValidRaw : RawSynthesis :=
  ⟨["a", "b", "c", "d", "e"], "Strong quarter ahead.", "Bullish", 7,
    "broad growth"⟩

/-- A chat state whose company name fails validation (it contains
exclamation marks). -/
def wBadState : ChatState := ⟨[], "Apple!!!", "light", ""⟩

/-- A chat state with a valid company name and the detailed toggle on. -/
def wGoodState : ChatState := ⟨[], "Apple", "detailed", ""⟩

/-- The analysis request expected from `wGoodState`. -/
def wGoodRequest : AnalyzeRequest := ⟨"Apple", "long-term"⟩

theorem C1_synthesis_validation_witness :
    ∃ res, synthesize appleEntity [] Goal.longTerm (some wValidRaw) =
      Except.ok res :=
  (C1_synthesis_validation appleEntity [] Goal.longTerm
    (some wValidRaw)).mpr
    ⟨wValidRaw, rfl, by decide, by decide, by decide, Or.inl rfl,
      by decide, by decide⟩

theorem C2_dedupe_stages_witness :
    (dedupe (fun u => u) [cexItem1, cexItem2, cexItem3]).Sublist
      [cexItem1, cexItem2, cexItem3] :=
  (C2_dedupe_stages (fun u => u) [cexItem1, cexItem2, cexItem3]).1

theorem C3_dedupe_idempotent_witness :
    dedupe (fun u => u)
        (dedupe (fun u => u) [cexItem1, cexItem2, cexItem3]) =
      dedupe (fun u => u) [cexItem1, cexItem2, cexItem3] :=
  C3_dedupe_idempotent (fun u => u) [cexItem1, cexItem2, cexItem3]

theorem C4_filter_fail_closed_witness :
    ([cexItem1, cexItem2] : List NewsItem).Nodup ∧
    ((llmFilter failFilterOracle appleEntity [cexItem1, cexItem2]
        10).Sublist [cexItem1, cexItem2] ∧
      ∀ b ∈ chunkList 10 [cexItem1, cexItem2],
        batchFails (failFilterOracle appleEntity b) b →
        ∀ x ∈ b,
          x ∉ llmFilter failFilterOracle appleEntity [cexItem1, cexItem2]
            10) :=
  ⟨by decide,
    C4_filter_fail_closed failFilterOracle appleEntity
      [cexItem1, cexItem2] 10 (by decide)⟩

theorem C5_recency_boundary_witness :
    (cexItem1 ∈ aggregate 10 5 [] ↔
      cexItem1 ∈ mergedNews [] ∧ 10 - 5 ≤ cexItem1.date) ∧
    { cexItem1 with date := 10 - 5 } ∈
      aggregate 10 5 [Except.ok [{ cexItem1 with date := 10 - 5 }]] ∧
    { cexItem1 with date := 10 - (5 + 1) } ∉
      aggregate 10 5 [Except.ok [{ cexItem1 with date := 10 - (5 + 1) }]] :=
  C5_recency_boundary 10 5 [] cexItem1

theorem C6_enrich_frame_witness :
    failFetch cexItem1.url = none ∧
    (enrichOne failFetch cexItem1).full_text = "" :=
  ⟨rfl, (C6_enrich_frame failFetch [cexItem1]).2.2.2 cexItem1 rfl⟩

theorem C7_resolver_fail_closed_witness :
    failResolve 0 = none ∧
    resolve failResolve "Apple" = ⟨"Apple", ""⟩ :=
  ⟨rfl, (C7_resolver_fail_closed failResolve "Apple").1 rfl⟩

theorem C8_all_adapters_fail_witness :
    (∀ r ∈ wFailingAdapters, ∃ e, r = Except.error e) ∧
    (aggregate 0 5 wFailingAdapters = [] ∧
      run_analysis failResolve wFailingAdapters failFilterOracle failFetch
        failSynth (fun u => u) 0 5 "Apple" Goal.shortTerm =
        Except.ok RunOutcome.noRecentNews) := by
  have hall : ∀ r ∈ wFailingAdapters, ∃ e, r = Except.error e := by
    intro r hr
    simp only [wFailingAdapters, List.mem_cons,
      List.not_mem_nil, or_false] at hr
    rcases hr with rfl | rfl
    · exact ⟨ProviderError.timeout, rfl⟩
    · exact ⟨ProviderError.httpError, rfl⟩
  exact ⟨hall,
    C8_all_adapters_fail failResolve wFailingAdapters failFilterOracle
      failFetch failSynth (fun u => u) 0 5 "Apple" Goal.shortTerm hall⟩

theorem C9_invalid_name_gates_send_witness :
    isValidCompanyName wBadState.companyName = false ∧
    handleSend wBadState =
      ({ wBadState with inputError := invalidNameError }, none, none) :=
  ⟨by decide, C9_invalid_name_gates_send wBadState (by decide)⟩

theorem C10_goal_mapping_witness :
    (handleSend wGoodState).2.2 = some wGoodRequest ∧
    ((wGoodRequest.goal = "long-term" ↔
        wGoodState.detailLevel = "detailed") ∧
      (wGoodState.detailLevel ≠ "detailed" →
        wGoodRequest.goal = "short-term")) :=
  ⟨by decide, C10_goal_mapping wGoodState wGoodRequest (by decide)⟩

end TradeWise
